import Mathlib

/-!
Shallow embedding of `src/transaction.js` (a UTXO-style Transaction class).

Scalar domains (`Digest`, `Address`, `PubKey`, `Sig`) are modelled as `Nat`;
the cryptographic collaborators from `utils.js` (`hash`, `calcAddress`,
`verifySignature`) are injected as a `Utils` record of Lean functions, since
`utils.js` is outside the sources and the spec fixes only their interface.
-/

namespace BCL

abbrev Digest := Nat
abbrev Address := Nat
abbrev PubKey := Nat
abbrev Sig := Nat

/-- An output: `{amount, address}` (transaction.js, class doc). -/
structure Output where
  amount : Nat
  address : Address
deriving DecidableEq, Repr

/-- An input: `{txID, outputIndex, pubKey, sig}` (transaction.js, class doc). -/
structure Input where
  txID : Digest
  outputIndex : Nat
  pubKey : PubKey
  sig : Sig
deriving DecidableEq, Repr

/-- A transaction: `inputs`, `outputs` and the `id` stored at construction. -/
structure Transaction where
  inputs : List Input
  outputs : List Output
  id : Digest
deriving DecidableEq, Repr

/-- Modelled from the spec: the collaborators consumed from `utils.js`, which
is not among the sources.  `hashTx` stands for
`utils.hash("" + JSON.stringify({inputs, outputs}))` — the spec requires
`hash` to be deterministic and the serialization canonical, which modelling
the composite as a Lean function captures.  `calcAddress` and
`verifySignature` are the deterministic capability interfaces of spec section 6. -/
structure Utils where
  hashTx : List Input → List Output → Digest
  calcAddress : PubKey → Address
  verifySignature : PubKey → Output → Sig → Bool

/-- `constructor({outputs, inputs=[]})` (transaction.js lines 40-48):
stores `inputs` and `outputs` and computes
`this.id = utils.hash("" + JSON.stringify({inputs, outputs}))` once. -/
def mkTransaction (u : Utils) (outputs : List Output)
    (inputs : List Input := []) : Transaction :=
  { inputs := inputs, outputs := outputs, id := u.hashTx inputs outputs }

/-- The ways `spendOutput` throws (transaction.js lines 57-71).
`ReferenceMismatch` is the line-60 throw for `txID !== this.id`;
`TypeErrorUndefined` is the TypeError JavaScript raises at line 63 when
`outputs[outputIndex]` is `undefined` (out-of-range index) and is destructured;
`AddressMismatch` is the line-65 throw; `InvalidSignature` the line-67 throw. -/
inductive SpendError where
  | ReferenceMismatch
  | TypeErrorUndefined
  | AddressMismatch
  | InvalidSignature
deriving DecidableEq, Repr

/-- `spendOutput(input)` (transaction.js lines 57-71), with JavaScript throws
rendered as `Except.error`. -/
def spendOutput (u : Utils) (t : Transaction) (input : Input) :
    Except SpendError Nat :=
  if input.txID ≠ t.id then
    .error .ReferenceMismatch
  else
    match t.outputs[input.outputIndex]? with
    | none => .error .TypeErrorUndefined
    | some output =>
      if u.calcAddress input.pubKey ≠ output.address then
        .error .AddressMismatch
      else if ¬ u.verifySignature input.pubKey output input.sig then
        .error .InvalidSignature
      else
        .ok output.amount

/-- The UTXO index passed to `isValid`: a JavaScript object mapping
transaction ids to arrays of outputs, modelled as an association list
(preserving the key iteration order of `for ... in`). -/
abbrev UtxoIndex := List (Digest × List Output)

/-- `isValid(utxos)` (transaction.js lines 128-139), exactly as written:
`found` starts `false`; for each input, for each key of `utxos`, for each
output object under that key, `found` is set to `true` whenever
`utils.verifySignature(input.pubKey, obj, input.sig)` holds; `found` is
returned.  The inputs' `txID`/`outputIndex` and the transaction's own
outputs are never consulted. -/
def isValid (u : Utils) (t : Transaction) (utxos : UtxoIndex) : Bool :=
  t.inputs.foldl (fun found input =>
    utxos.foldl (fun found kv =>
      kv.2.foldl (fun found obj =>
        if u.verifySignature input.pubKey obj input.sig then true else found)
        found)
      found)
    false

/-- `addFee(amount)` (transaction.js lines 154-156):
`this.outputs[0].amount += amount`.  With empty `outputs`, `outputs[0]` is
`undefined` and the member access throws a TypeError, rendered as `none`. -/
def addFee (t : Transaction) (amount : Nat) : Option Transaction :=
  match t.outputs with
  | [] => none
  | o :: rest =>
    some { t with outputs := { o with amount := o.amount + amount } :: rest }

/-- `totalOutput()` (transaction.js lines 161-165):
`outputs.reduce((acc, {amount}) => acc + amount, 0)`. -/
def totalOutput (t : Transaction) : Nat :=
  t.outputs.foldl (fun acc o => acc + o.amount) 0

/-! ### Concrete instantiation used to evaluate the code on test inputs -/

/-- A concrete, fully computable `Utils` for evaluating the embedded code:
addresses are `pubKey + 100`, a signature is valid iff
`sig = pubKey + amount`, and ids are a simple deterministic digest. -/
def testUtils : Utils where
  hashTx := fun ins outs => 1000 + ins.length + 10 * outs.length
  calcAddress := fun pk => pk + 100
  verifySignature := fun pk o s => s == pk + o.amount

/-! ### Helper lemmas about the fold structure of the embedded code -/

/-- The innermost `isValid` loop computes `found || any`. -/
theorem foldl_if_true_eq_or (p : Output → Bool) (l : List Output)
    (found : Bool) :
    l.foldl (fun found obj => if p obj then true else found) found
      = (found || l.any p) := by
  induction l generalizing found with
  | nil => simp
  | cons x xs ih =>
    simp only [List.foldl_cons, List.any_cons, ih]
    by_cases h : p x = true <;> simp [h]

/-- The middle `isValid` loop computes `found || any over the key list`. -/
theorem foldl_utxos_eq_or (p : Output → Bool) (utxos : UtxoIndex)
    (found : Bool) :
    utxos.foldl (fun found kv =>
        kv.2.foldl (fun found obj => if p obj then true else found) found)
        found
      = (found || utxos.any (fun kv => kv.2.any p)) := by
  induction utxos generalizing found with
  | nil => simp
  | cons kv rest ih =>
    simp only [List.foldl_cons, List.any_cons]
    rw [foldl_if_true_eq_or, ih, Bool.or_assoc]

/-- The outer `isValid` loop computes `found || any over the inputs`. -/
theorem foldl_inputs_eq_or (u : Utils) (utxos : UtxoIndex)
    (inputs : List Input) (found : Bool) :
    inputs.foldl (fun found input =>
        utxos.foldl (fun found kv =>
          kv.2.foldl (fun found obj =>
            if u.verifySignature input.pubKey obj input.sig then true
            else found) found) found)
        found
      = (found || inputs.any (fun input =>
          utxos.any (fun kv =>
            kv.2.any (fun obj =>
              u.verifySignature input.pubKey obj input.sig)))) := by
  induction inputs generalizing found with
  | nil => simp
  | cons i rest ih =>
    simp only [List.foldl_cons, List.any_cons]
    rw [foldl_utxos_eq_or, ih, Bool.or_assoc]

/-- `isValid` equals an existential scan: some input's `(pubKey, sig)`
verifies against some output stored anywhere in the index. -/
theorem isValid_eq_any (u : Utils) (t : Transaction) (utxos : UtxoIndex) :
    isValid u t utxos
      = t.inputs.any (fun input =>
          utxos.any (fun kv =>
            kv.2.any (fun obj =>
              u.verifySignature input.pubKey obj input.sig))) := by
  unfold isValid
  rw [foldl_inputs_eq_or]
  simp

/-- Scanning the keyed index equals scanning the flattened list of all
outputs stored anywhere in it. -/
theorem any_utxos_eq_any_flatten (utxos : UtxoIndex) (p : Output → Bool) :
    utxos.any (fun kv => kv.2.any p)
      = ((utxos.map Prod.snd).flatten).any p := by
  induction utxos with
  | nil => simp
  | cons kv rest ih => simp [List.any_append, ih]

/-- `any` is invariant under permutation of the list. -/
theorem any_of_perm {l1 l2 : List Output} (p : Output → Bool)
    (h : l1.Perm l2) : l1.any p = l2.any p := by
  rw [Bool.eq_iff_iff]
  simp only [List.any_eq_true]
  exact ⟨fun ⟨x, hx, hp⟩ => ⟨x, h.mem_iff.mp hx, hp⟩,
    fun ⟨x, hx, hp⟩ => ⟨x, h.mem_iff.mpr hx, hp⟩⟩

/-- `any` over inputs of a predicate reading only `(pubKey, sig)` factors
through the projection to those two fields. -/
theorem any_inputs_factor (l : List Input) (g : PubKey × Sig → Bool) :
    l.any (fun i => g (i.pubKey, i.sig))
      = (l.map (fun i => (i.pubKey, i.sig))).any g := by
  induction l with
  | nil => simp
  | cons i rest ih => simp [ih]

/-! ### The claims -/

/-- C1: the spec requires `isValid(utxos)` to hold iff every input passes
the per-input lookup, address and signature checks at its own claimed
`(txID, outputIndex)` and the matched input total covers the output total;
in particular a transaction with one valid input of amount 10 and one
output of amount 20 must be invalid.  The code violates this: on exactly
that configuration (UTXO of amount 10 under key 1, input signed for it,
single output of amount 20) `isValid` returns `true`, because the
implementation only looks for any signature match anywhere and never sums
amounts — contradicting the method's own doc comment (transaction.js
lines 77-80). -/
theorem c1_isValid_accepts_insufficient_funds :
    isValid testUtils
      (mkTransaction testUtils [⟨20, 7⟩] [⟨1, 0, 5, 15⟩])
      [(1, [⟨10, 105⟩])] = true
    ∧ totalOutput (mkTransaction testUtils [⟨20, 7⟩] [⟨1, 0, 5, 15⟩]) = 20 := by
  constructor <;> rfl

/-- C2: the spec requires a transaction with two inputs referencing the
same `(txID, outputIndex)` to be invalid even when that single UTXO's
amount covers the outputs.  The code violates this: with a UTXO of amount
100 under `(1, 0)` and two identical inputs both claiming `(1, 0)`,
`isValid` returns `true` (the implementation keeps no consumed-pair set). -/
theorem c2_isValid_accepts_internal_double_spend :
    isValid testUtils
      (mkTransaction testUtils [⟨50, 7⟩] [⟨1, 0, 5, 105⟩, ⟨1, 0, 5, 105⟩])
      [(1, [⟨100, 105⟩])] = true := by
  rfl

/-- C3: the spec requires `isValid` to return `false` whenever some
input's `txID` is absent from the keys of `utxos`.  The code violates
this: the implementation never reads `input.txID` — here the only input
claims `txID = 2`, the index only has key `1`, yet `isValid` returns
`true` because the input's signature verifies against an output stored
under the unrelated key. -/
theorem c3_isValid_ignores_missing_txID :
    isValid testUtils
      (mkTransaction testUtils [⟨5, 7⟩] [⟨2, 0, 5, 15⟩])
      [(1, [⟨10, 105⟩])] = true := by
  rfl

/-- C4: a transaction with an empty `inputs` sequence is rejected by
`isValid` for every UTXO index: the loop over `this.inputs` never runs,
`found` stays `false`, and `false` is returned. -/
theorem c4_isValid_empty_inputs_false (u : Utils) (outputs : List Output)
    (id : Digest) (utxos : UtxoIndex) :
    isValid u ⟨[], outputs, id⟩ utxos = false := by
  rfl

/-- C5: the spec requires `spendOutput` on an out-of-range `outputIndex`
(with matching `txID`) to fail with an explicit `IndexOutOfRange` error
condition.  The code instead lets `outputs[outputIndex]` evaluate to
`undefined` and crashes with a TypeError when destructuring it
(transaction.js lines 62-63): here the transaction has one output and the
input claims index 5. -/
theorem c5_spendOutput_crashes_out_of_range :
    spendOutput testUtils (mkTransaction testUtils [⟨10, 105⟩] [])
      ⟨1010, 5, 5, 15⟩ = Except.error SpendError.TypeErrorUndefined := by
  rfl

/-- C6: `spendOutput` on an input whose `txID` differs from the
transaction's own id fails with the `ReferenceMismatch` throw of
transaction.js lines 59-61, before any address or signature check is
reached — hence regardless of signature validity. -/
theorem c6_spendOutput_reference_mismatch (u : Utils) (t : Transaction)
    (input : Input) (h : input.txID ≠ t.id) :
    spendOutput u t input = Except.error SpendError.ReferenceMismatch := by
  unfold spendOutput
  rw [if_pos h]

/-- C6 witness: a concrete input with a wrong `txID` (and a signature that
would verify) is rejected with `ReferenceMismatch`. -/
theorem c6_witness :
    spendOutput testUtils (mkTransaction testUtils [⟨10, 105⟩] [])
      ⟨0, 0, 5, 15⟩ = Except.error SpendError.ReferenceMismatch :=
  c6_spendOutput_reference_mismatch testUtils
    (mkTransaction testUtils [⟨10, 105⟩] []) ⟨0, 0, 5, 15⟩ (by decide)

/-- C7: for an input with matching `txID` and in-range `outputIndex`,
letting `output = outputs[outputIndex]`: `spendOutput` fails with
`AddressMismatch` when `calcAddress(pubKey)` differs from
`output.address`; fails with `InvalidSignature` when the address matches
but `verifySignature(pubKey, output, sig)` is false; and otherwise
returns `output.amount` (transaction.js lines 62-70). -/
theorem c7_spendOutput_checks (u : Utils) (t : Transaction) (input : Input)
    (output : Output) (hid : input.txID = t.id)
    (hidx : t.outputs[input.outputIndex]? = some output) :
    (u.calcAddress input.pubKey ≠ output.address →
      spendOutput u t input = Except.error SpendError.AddressMismatch)
    ∧ (u.calcAddress input.pubKey = output.address →
        u.verifySignature input.pubKey output input.sig = false →
        spendOutput u t input = Except.error SpendError.InvalidSignature)
    ∧ (u.calcAddress input.pubKey = output.address →
        u.verifySignature input.pubKey output input.sig = true →
        spendOutput u t input = Except.ok output.amount) := by
  have hne : ¬ input.txID ≠ t.id := fun hc => hc hid
  refine ⟨fun haddr => ?_, fun haddr hsig => ?_, fun haddr hsig => ?_⟩
  · simp [spendOutput, hne, hidx, haddr]
  · simp [spendOutput, hne, hidx, haddr, hsig]
  · simp [spendOutput, hne, hidx, haddr, hsig]

/-- C7 witness: with a matching id, index 0 in range, matching address
and valid signature, `spendOutput` returns the output's amount 10. -/
theorem c7_witness :
    spendOutput testUtils (mkTransaction testUtils [⟨10, 105⟩] [])
      ⟨1010, 0, 5, 15⟩ = Except.ok 10 :=
  (c7_spendOutput_checks testUtils (mkTransaction testUtils [⟨10, 105⟩] [])
      ⟨1010, 0, 5, 15⟩ ⟨10, 105⟩ (by decide) (by decide)).2.2
    (by decide) (by decide)

/-- Folding `+ amount` starting from `n` equals `n` plus the fold from 0. -/
theorem totalOutput_foldl_add (l : List Output) (n : Nat) :
    l.foldl (fun acc o => acc + o.amount) n
      = n + l.foldl (fun acc o => acc + o.amount) 0 := by
  induction l generalizing n with
  | nil => simp
  | cons x xs ih =>
    simp only [List.foldl_cons]
    rw [ih (n + x.amount), ih (0 + x.amount)]
    omega

/-- `totalOutput` of a cons-shaped outputs list splits off the head. -/
theorem totalOutput_cons (ins : List Input) (o : Output)
    (rest : List Output) (id : Digest) :
    totalOutput ⟨ins, o :: rest, id⟩
      = o.amount + totalOutput ⟨ins, rest, id⟩ := by
  simp only [totalOutput, List.foldl_cons]
  rw [totalOutput_foldl_add rest (0 + o.amount)]
  omega

/-- C8: on a transaction built with non-empty outputs `o :: rest`,
`addFee(amount)` succeeds and the result has `outputs[0].amount` increased
by `amount` (rest untouched), `totalOutput` increased by `amount`, and the
`id` still exactly the hash computed at construction (transaction.js line
155 mutates only `outputs[0].amount`; line 47 never recomputes `id`). -/
theorem c8_addFee_changes_total_not_id (u : Utils) (ins : List Input)
    (o : Output) (rest : List Output) (amount : Nat) :
    ∃ t', addFee (mkTransaction u (o :: rest) ins) amount = some t'
      ∧ t'.id = u.hashTx ins (o :: rest)
      ∧ t'.id = (mkTransaction u (o :: rest) ins).id
      ∧ t'.outputs = { o with amount := o.amount + amount } :: rest
      ∧ totalOutput t'
          = totalOutput (mkTransaction u (o :: rest) ins) + amount := by
  refine ⟨⟨ins, { o with amount := o.amount + amount } :: rest,
    u.hashTx ins (o :: rest)⟩, rfl, rfl, rfl, rfl, ?_⟩
  show totalOutput ⟨ins, { o with amount := o.amount + amount } :: rest,
      u.hashTx ins (o :: rest)⟩ = _
  have hmk : mkTransaction u (o :: rest) ins
      = ⟨ins, o :: rest, u.hashTx ins (o :: rest)⟩ := rfl
  rw [totalOutput_cons, hmk, totalOutput_cons,
    show ({ o with amount := o.amount + amount } : Output).amount
      = o.amount + amount from rfl]
  omega

/-- C9: the id stored at construction is a deterministic function of the
initial inputs and outputs: two constructions from identical content get
identical ids (transaction.js line 47 hashes the serialized content). -/
theorem c9_id_deterministic (u : Utils) (ins1 : List Input)
    (outs1 : List Output) (ins2 : List Input) (outs2 : List Output)
    (hin : ins1 = ins2) (hout : outs1 = outs2) :
    (mkTransaction u outs1 ins1).id = (mkTransaction u outs2 ins2).id := by
  rw [hin, hout]

/-- C9 witness: two constructions from the same concrete content agree. -/
theorem c9_witness :
    (mkTransaction testUtils [⟨20, 7⟩] [⟨1, 0, 5, 15⟩]).id
      = (mkTransaction testUtils [⟨20, 7⟩] [⟨1, 0, 5, 15⟩]).id :=
  c9_id_deterministic testUtils [⟨1, 0, 5, 15⟩] [⟨20, 7⟩]
    [⟨1, 0, 5, 15⟩] [⟨20, 7⟩] rfl rfl

/-- `any` over inputs respects agreement of the projected `(pubKey, sig)`
lists, for any predicate reading only those two fields. -/
theorem any_congr_pairs (l1 l2 : List Input) (g : PubKey → Sig → Bool)
    (h : l1.map (fun i => (i.pubKey, i.sig))
       = l2.map (fun i => (i.pubKey, i.sig))) :
    l1.any (fun i => g i.pubKey i.sig)
      = l2.any (fun i => g i.pubKey i.sig) := by
  induction l1 generalizing l2 with
  | nil =>
    cases l2 with
    | nil => rfl
    | cons b bs => simp at h
  | cons a as ih =>
    cases l2 with
    | nil => simp at h
    | cons b bs =>
      simp only [List.map_cons, List.cons.injEq] at h
      obtain ⟨hab, hrest⟩ := h
      have hpk : a.pubKey = b.pubKey := congrArg Prod.fst hab
      have hsg : a.sig = b.sig := congrArg Prod.snd hab
      simp only [List.any_cons, ih bs hrest, hpk, hsg]

/-- C10: `isValid` never reads the inputs' `txID`/`outputIndex`, the
transaction's own outputs, or the keying of the UTXO index: two runs that
agree on every input's `(pubKey, sig)` (in order) and on the multiset of
outputs stored anywhere in the index return the same boolean — the
hyperproperty exhibiting that transaction.js lines 128-139 validate by
scanning every stored output for any signature match. -/
theorem c10_isValid_ignores_references (u : Utils) (t1 t2 : Transaction)
    (utxos1 utxos2 : UtxoIndex) ( _hne : t1.inputs ≠ [])
    (hins : t1.inputs.map (fun i => (i.pubKey, i.sig))
          = t2.inputs.map (fun i => (i.pubKey, i.sig)))
    (hperm : ((utxos1.map Prod.snd).flatten).Perm
      ((utxos2.map Prod.snd).flatten)) :
    isValid u t1 utxos1 = isValid u t2 utxos2 := by
  rw [isValid_eq_any, isValid_eq_any]
  simp only [any_utxos_eq_any_flatten]
  simp only [show ∀ p, ((utxos1.map Prod.snd).flatten).any p
      = ((utxos2.map Prod.snd).flatten).any p from
    fun p => any_of_perm p hperm]
  exact any_congr_pairs t1.inputs t2.inputs
    (fun pk s => ((utxos2.map Prod.snd).flatten).any
      (fun obj => u.verifySignature pk obj s)) hins

/-- C10 witness: rewriting the references (txIDs, output indices, the
transaction's own outputs, and the index keying/grouping) while keeping
each input's `(pubKey, sig)` and the stored outputs gives the same
verdict. -/
theorem c10_witness :
    isValid testUtils (mkTransaction testUtils [⟨20, 7⟩] [⟨1, 0, 5, 15⟩])
        [(1, [⟨10, 105⟩]), (2, [⟨7, 4⟩])]
      = isValid testUtils
          (mkTransaction testUtils [⟨99, 3⟩] [⟨42, 9, 5, 15⟩])
          [(8, [⟨7, 4⟩, ⟨10, 105⟩])] :=
  c10_isValid_ignores_references testUtils
    (mkTransaction testUtils [⟨20, 7⟩] [⟨1, 0, 5, 15⟩])
    (mkTransaction testUtils [⟨99, 3⟩] [⟨42, 9, 5, 15⟩])
    [(1, [⟨10, 105⟩]), (2, [⟨7, 4⟩])] [(8, [⟨7, 4⟩, ⟨10, 105⟩])]
    (by decide) rfl
    (show ([⟨10, 105⟩, ⟨7, 4⟩] : List Output).Perm [⟨7, 4⟩, ⟨10, 105⟩] from
      List.Perm.swap (⟨7, 4⟩ : Output) (⟨10, 105⟩ : Output) [])

end BCL
